import Mathlib

/-!
Verification of the connection-management wrapper in `src/Mongo.ts`
(`MongoConnect.getConnectionUrl`, `MongoConnect.connect`,
`handleMongoError`, `isValidObjectId`, `castToObjectId`) via a shallow
embedding: asynchronous effects become explicit state passing plus an
event trace, and the external driver (server-list provider, per-attempt
connection outcome, fresh client handles) becomes an oracle `Nat → AttemptEnv`.
-/

namespace MongoWrapper

/-- `Server` interface: `{ host: string; port: number }`. -/
structure Server where
  host : String
  port : Nat
deriving DecidableEq, Repr

/-- `AuthConfig` interface (the `authSource` field only feeds driver options,
not the URL, so it is omitted). -/
structure AuthConfig where
  username : String
  password : String
deriving DecidableEq, Repr

/-- JS template literal `` `${server.host}:${server.port}` ``. -/
def serverToken (s : Server) : String :=
  s.host ++ ":" ++ toString s.port

/-- JS `Array.prototype.join("")`, used for `joiner.join("")`. -/
def joinAll : List String → String
  | [] => ""
  | x :: xs => x ++ joinAll xs

/-- JS `Array.prototype.join(",")`, used for the host list. -/
def joinComma : List String → String
  | [] => ""
  | [x] => x
  | x :: xs => x ++ "," ++ joinComma xs

/-- Uppercase hexadecimal digit, as produced by percent-encoding. -/
def hexUpper (n : Nat) : Char :=
  if n < 10 then Char.ofNat (48 + n) else Char.ofNat (55 + n)

/-- Percent-encoding `%XX` of one byte. -/
def byteToPercent (b : Nat) : String :=
  String.mk ['%', hexUpper (b / 16 % 16), hexUpper (b % 16)]

/-- UTF-8 bytes of a code point, for percent-encoding. -/
def utf8Bytes (c : Char) : List Nat :=
  let n := c.toNat
  if n < 0x80 then [n]
  else if n < 0x800 then [0xC0 + n / 64, 0x80 + n % 64]
  else if n < 0x10000 then [0xE0 + n / 4096, 0x80 + n / 64 % 64, 0x80 + n % 64]
  else [0xF0 + n / 262144, 0x80 + n / 4096 % 64, 0x80 + n / 64 % 64, 0x80 + n % 64]

/-- Characters `URLSearchParams` serialization leaves unescaped
(`application/x-www-form-urlencoded`): alphanumerics and `*-._`. -/
def isFormSafe (c : Char) : Bool :=
  c.isAlphanum || c = '*' || c = '-' || c = '.' || c = '_'

/-- One character of `URLSearchParams.toString()` output. -/
def formEncodeChar (c : Char) : String :=
  if c = ' ' then "+"
  else if isFormSafe c then String.singleton c
  else joinAll ((utf8Bytes c).map byteToPercent)

/-- `URLSearchParams` value serialization. -/
def formEncode (s : String) : String :=
  joinAll (s.data.map formEncodeChar)

/-- `MongoConnect.getConnectionUrl`, embedded as a pure function of the
provider result and the current healthy-host cache (`this.healthyHosts`,
modelled as a list that starts empty, matching `getHealthyHosts()`'s
`this.healthyHosts || []`). Returns the URL and the new cache value.

Source:
```
let servers = await this.userConfig.getServers();
const joiner = ["mongodb://"];
if (this.userConfig.auth) { joiner.push(`${username}:${password}@`); }
if (servers.length == 0) { servers = this.getHealthyHosts(); }
this.healthyHosts = servers;
joiner.push(servers.map((server) => `${server.host}:${server.port}`).join(","));
const params = new URLSearchParams();
if (this.name) { params.set("appName", this.name); }
return joiner.join("") + (params.size > 0 ? "?" + params.toString() : "");
```
-/
def getConnectionUrl (auth : Option AuthConfig) (name : String)
    (providerServers : List Server) (healthyHosts : List Server) :
    String × List Server :=
  let servers := providerServers
  let joiner := ["mongodb://"]
  let joiner := joiner ++ (match auth with
    | some a => [a.username ++ ":" ++ a.password ++ "@"]
    | none => [])
  let servers := if servers.length == 0 then healthyHosts else servers
  let newHealthy := servers
  let joiner := joiner ++ [joinComma (servers.map serverToken)]
  let query := if name == "" then "" else "?" ++ "appName=" ++ formEncode name
  (joinAll joiner ++ query, newHealthy)

/-- Outcome the driver produces for one connection attempt
(`new MongoClient(url, config)` + `await mongoClient.connect()`):
success with a fresh client handle (identified by a `Nat`), a retryable
failure (`MongoServerSelectionError` / `MongoNetworkError` /
`MongoNetworkTimeoutError`, carrying an error code), or any other failure. -/
inductive ConnOutcome
  | ok (c : Nat)
  | errRetryable (e : Nat)
  | errFatal (e : Nat)
deriving DecidableEq, Repr

/-- The external world of one attempt: what `userConfig.getServers()`
returns, and how the driver connect turns out. -/
structure AttemptEnv where
  servers : List Server
  conn : ConnOutcome
deriving Repr

/-- Observable effects of `connect()`: `this.error(err)` emission, the
backoff sleep (in seconds, `2 * attempt`), the success emission, and the
close of the superseded client — `closeInitiated` for a fire-and-forget
`close()`, `closeAwaited` for an `await close()` (never emitted by the
current source, which deliberately does not await). -/
inductive Ev
  | errorEmitted (e : Nat)
  | sleep (secs : Nat)
  | successEmitted
  | closeInitiated (c : Nat)
  | closeAwaited (c : Nat)
deriving DecidableEq, Repr

/-- Mutable fields of `MongoConnect` touched by `connect()`:
`this.mongoClient` (undefined before the first success), `this.client`
(the `Db` handle, modelled as the pair of the client it was derived from
and the database name), and `this.healthyHosts`. -/
structure MState where
  mongoClient : Option Nat
  client : Option (Nat × String)
  healthyHosts : List Server
deriving DecidableEq, Repr

/-- How the `while (!connected && attempt <= 10)` loop ended. -/
inductive LoopExit
  | connected
  | exhausted
  | fatal (e : Nat)
deriving DecidableEq, Repr

/-- Result of running the retry loop: final state, emitted events in
order, exit mode, and the number of connection attempts performed. -/
structure LoopRes where
  state : MState
  trace : List Ev
  exit : LoopExit
  attemptsMade : Nat
deriving DecidableEq, Repr

/-- The retry loop of `MongoConnect.connect`:
```
while (!connected && attempt <= 10) {
  try {
    const connectionUrl = await this.getConnectionUrl();
    const mongoClient = new MongoClient(connectionUrl, this.config);
    await mongoClient.connect();
    this.mongoClient = mongoClient;
    connected = true;
  } catch (err) {
    if (MongoConnect.isValidError(err)) {
      this.error(err);
      await new Promise((res) => setTimeout(res, 2 * attempt * 1000));
      attempt++;
    } else {
      throw new Error(err);
    }
  }
}
```
The first argument is structural fuel bounding the recursion; the real
exit condition is the source's guard `attempt ≤ 10`, and `connect` below
passes fuel `11` with `attempt = 1`, so the fuel is never exhausted
before the guard fails. -/
def connectLoop (auth : Option AuthConfig) (name : String) (env : Nat → AttemptEnv) :
    Nat → Nat → MState → LoopRes
  | 0, _, s => ⟨s, [], .exhausted, 0⟩
  | fuel + 1, attempt, s =>
    if attempt ≤ 10 then
      let a := env attempt
      let r := getConnectionUrl auth name a.servers s.healthyHosts
      let s1 : MState := { s with healthyHosts := r.2 }
      match a.conn with
      | .ok c => ⟨{ s1 with mongoClient := some c }, [], .connected, 1⟩
      | .errRetryable e =>
        let rest := connectLoop auth name env fuel (attempt + 1) s1
        ⟨rest.state, .errorEmitted e :: .sleep (2 * attempt) :: rest.trace,
          rest.exit, rest.attemptsMade + 1⟩
      | .errFatal e => ⟨s1, [], .fatal e, 1⟩
    else ⟨s, [], .exhausted, 0⟩

/-- What a `connect()` invocation does from the caller's point of view:
resolve with `this` (the manager itself), or reject. -/
inductive ConnErr
  | wrapped (e : Nat)
  | typeFault
deriving DecidableEq, Repr

/-- `connect()`'s settlement: `resolvedSelf` models `return this`. -/
inductive ConnectResult
  | resolvedSelf
  | threw (e : ConnErr)
deriving DecidableEq, Repr

/-- `MongoConnect.connect`, after the loop:
```
this.client = this.mongoClient.db(this.userConfig.db);
this.success(`Successfully connected in ${this.mode} mode`);
... (command listeners registered on this.mongoClient) ...
if (oldMongoClient instanceof MongoClient) { oldMongoClient.close(); }
return this;
```
`oldMongoClient` is captured before the loop. If the loop exits with
`this.mongoClient` still undefined (exhaustion on a fresh manager),
reading `.db` of `undefined` is the unhandled `TypeError`, modelled as
`ConnErr.typeFault`. A non-retryable attempt error propagates as
`ConnErr.wrapped` (`throw new Error(err)`). The old client's `close()` is
only initiated (`Ev.closeInitiated`), never awaited. -/
def connect (auth : Option AuthConfig) (name dbName : String)
    (env : Nat → AttemptEnv) (s : MState) : MState × List Ev × ConnectResult :=
  let oldMongoClient := s.mongoClient
  let r := connectLoop auth name env 11 1 s
  match r.exit with
  | .fatal e => (r.state, r.trace, .threw (.wrapped e))
  | _ =>
    match r.state.mongoClient with
    | none => (r.state, r.trace, .threw .typeFault)
    | some c =>
      let s2 : MState := { r.state with client := some (c, dbName) }
      let closeEvs : List Ev := match oldMongoClient with
        | some oldC => [Ev.closeInitiated oldC]
        | none => []
      (s2, r.trace ++ [Ev.successEmitted] ++ closeEvs, .resolvedSelf)

/-- The sleep durations recorded in a trace, in order. -/
def sleepsOf (tr : List Ev) : List Nat :=
  tr.filterMap fun e => match e with | .sleep n => some n | _ => none

/-- Error values fed to `MongoConnect.isValidError` / `handleMongoError`. -/
inductive MErr
  | serverSelection (e : Nat)
  | network (e : Nat)
  | networkTimeout (e : Nat)
  | other (e : Nat)
deriving DecidableEq, Repr

/-- `MongoConnect.isValidError`: `err instanceof MongoServerSelectionError
|| err instanceof MongoNetworkError || err instanceof
MongoNetworkTimeoutError`. -/
def isValidError : MErr → Bool
  | .serverSelection _ => true
  | .network _ => true
  | .networkTimeout _ => true
  | .other _ => false

/-- How a `handleMongoError` call settles: resolve with a value
(`none` is JS `null`, `some err` returns the error unchanged), or reject. -/
inductive HResult
  | returned (r : Option MErr)
  | threw (e : ConnErr)
deriving DecidableEq, Repr

deriving instance DecidableEq for Except

/-- JS value of the `reconnecting` field. The field is declared
(`reconnecting: Promise<Mongo>`) but never initialized — not in the
`MongoConnect` constructor and not in any subclass or factory — so a
fresh manager holds `undefined` there (`undef`); `handleMongoError`
assigns it either a promise or `null`. A held promise is modelled by its
settled outcome. -/
inductive RecMarker
  | undef
  | null
  | promise (p : Except ConnErr Unit)
deriving DecidableEq, Repr

/-- `handleMongoError(err, mongo)`, sequential (single-caller) embedding:
```
if (MongoConnect.isValidError(err)) {
  if (mongo.reconnecting === null) {
    mongo.reconnecting = mongo.connect().then(() => { return null; });
  }
  await (mongo.reconnecting || Promise.resolve());
  mongo.reconnecting = null;
  return null
}
return err;
```
The guard is strict equality with `null`, so it is false both when a
recovery promise is held and on a fresh manager where the field is still
`undefined`: in the latter case no `connect()` is started at all, the
`await (mongo.reconnecting || Promise.resolve())` awaits the resolved
fallback (`undefined` is falsy), the field is set to `null` and `null` is
returned. With one caller and cooperative scheduling, by the time the
`await` runs, a remembered `connect()` has settled; there is no `.catch`
on the chain, so if `connect()` rejects the `await` re-throws and the
`mongo.reconnecting = null` line never runs. Returns (new `MState`, new
`reconnecting` value, settlement, number of `connect()` invocations made
by this call). -/
def handleMongoError (err : MErr) (auth : Option AuthConfig) (name dbName : String)
    (env : Nat → AttemptEnv) (mst : MState) (reconnecting : RecMarker) :
    MState × RecMarker × HResult × Nat :=
  if isValidError err then
    let started :=
      match reconnecting with
      | .null =>
        let c := connect auth name dbName env mst
        let promise : Except ConnErr Unit :=
          match c.2.2 with
          | .resolvedSelf => .ok ()
          | .threw e => .error e
        (c.1, RecMarker.promise promise, 1)
      | m => (mst, m, 0)
    match started with
    | (mst1, .promise (.error e), invoked) =>
      (mst1, .promise (.error e), .threw e, invoked)
    | (mst1, _, invoked) => (mst1, .null, .returned none, invoked)
  else (mst, reconnecting, .returned (some err), 0)

/-- Shared manager state for the interleaved (multi-caller) model of
`handleMongoError`: the `reconnecting` marker holds the identity of the
outstanding recovery operation, `connectCalls` counts `mongo.connect()`
invocations, `nextRid` supplies fresh recovery identities. -/
structure CState where
  reconnecting : Option Nat
  connectCalls : Nat
  nextRid : Nat
deriving DecidableEq, Repr

/-- A caller's position inside `handleMongoError`: suspended on
`await mongo.reconnecting` (holding the identity of the operation it
awaits), or finished with a settlement. -/
inductive PC
  | awaiting (rid : Nat)
  | finished (r : HResult)
deriving DecidableEq, Repr

/-- The synchronous segment of `handleMongoError` up to its first
suspension point: the classification check, the `reconnecting === null`
test and (when null) the assignment `mongo.reconnecting = mongo.connect()
.then(...)`. In JS this whole segment runs without an intervening
`await`, so it is one atomic step of the cooperative scheduler. -/
def stepEntry (err : MErr) (g : CState) : CState × PC :=
  if isValidError err then
    match g.reconnecting with
    | none =>
      ({ reconnecting := some g.nextRid, connectCalls := g.connectCalls + 1,
         nextRid := g.nextRid + 1 }, .awaiting g.nextRid)
    | some rid => (g, .awaiting rid)
  else (g, .finished (.returned (some err)))

/-- A caller resuming after the recovery it awaited resolved:
`mongo.reconnecting = null; return null`. -/
def stepResume (g : CState) : CState × PC :=
  ({ g with reconnecting := none }, .finished (.returned none))

/-- `c.isDigit || ('a' ≤ c && c ≤ 'f')` — one character of the character
class `[0-9a-f]` of the regex in `isValidObjectId`. -/
def isHexLower (c : Char) : Bool :=
  c.isDigit || ('a' ≤ c && c ≤ 'f')

/-- Whether the regex `/[0-9a-f]{24}/` matches, i.e. whether the string
contains 24 consecutive lowercase-hex characters. -/
def hasHex24 : List Char → Bool
  | [] => false
  | c :: cs =>
    (((c :: cs).take 24).length == 24 && ((c :: cs).take 24).all isHexLower)
      || hasHex24 cs

/-- `isValidObjectId`, over the string form of the input
(`String(value)`); `ObjectId.isValid` is the driver's validator, an
oracle parameter:
```
const regex = /[0-9a-f]{24}/;
const matched = String(value).match(regex);
if (!matched) { return false; }
return ObjectId.isValid(value);
```
-/
def isValidObjectId (nativeIsValid : String → Bool) (value : String) : Bool :=
  if !hasHex24 value.data then false else nativeIsValid value

/-- `castToObjectId`; `ObjectId.createFromHexString` is the driver's
constructor, an oracle parameter. `Except.error msg` models
`throw new TypeError(msg)`:
```
if (isValidObjectId(value) === false) {
  throw new TypeError(`Value passed is not valid objectId, is [ ${value} ]`);
}
return ObjectId.createFromHexString(value);
```
-/
def castToObjectId (nativeIsValid : String → Bool) (createFromHexString : String → Nat)
    (value : String) : Except String Nat :=
  if isValidObjectId nativeIsValid value = false then
    .error ("Value passed is not valid objectId, is [ " ++ value ++ " ]")
  else
    .ok (createFromHexString value)

/-- Credential segment of the URL format. -/
def credSeg : Option AuthConfig → String
  | some a => a.username ++ ":" ++ a.password ++ "@"
  | none => ""

/-- Query-suffix segment of the URL format. -/
def querySeg (name : String) : String :=
  if name == "" then "" else "?" ++ "appName=" ++ formEncode name

/-- State after the `getConnectionUrl` call of one attempt (only the
healthy-host cache changes). Proof-side abbreviation for the loop body's
intermediate state. -/
def afterUrl (auth : Option AuthConfig) (name : String) (env : Nat → AttemptEnv)
    (attempt : Nat) (s : MState) : MState :=
  { s with healthyHosts := (getConnectionUrl auth name (env attempt).servers s.healthyHosts).2 }

/-- An environment in which every attempt fails with a retryable error. -/
def allRetryableEnv : Nat → AttemptEnv := fun _ => ⟨[], .errRetryable 0⟩

/-- An environment in which attempts 1 and 2 fail retryably and attempt 3
fails with a non-retryable error. -/
def fatalAfterRetriesEnv : Nat → AttemptEnv :=
  fun n => if n ≤ 2 then ⟨[], .errRetryable n⟩ else ⟨[], .errFatal 5⟩

/-- An environment in which the very first attempt fails non-retryably. -/
def fatalFirstEnv : Nat → AttemptEnv := fun _ => ⟨[⟨"h", 1⟩], .errFatal 7⟩

/-- An environment in which the first attempt succeeds with client 42. -/
def successFirstEnv : Nat → AttemptEnv := fun _ => ⟨[⟨"h", 27017⟩], .ok 42⟩

lemma getConnectionUrl_fst (auth : Option AuthConfig) (name : String)
    (provider cache : List Server) :
    (getConnectionUrl auth name provider cache).1 =
      "mongodb://" ++ credSeg auth ++
        joinComma (((if provider = [] then cache else provider)).map serverToken) ++
        querySeg name := by
  apply String.ext
  cases auth with
  | none =>
    cases provider with
    | nil =>
      simp [getConnectionUrl, credSeg, querySeg, joinAll, String.data_append]
    | cons x xs =>
      simp [getConnectionUrl, credSeg, querySeg, joinAll, String.data_append]
  | some a =>
    cases provider with
    | nil =>
      simp [getConnectionUrl, credSeg, querySeg, joinAll, String.data_append]
    | cons x xs =>
      simp [getConnectionUrl, credSeg, querySeg, joinAll, String.data_append]

lemma getConnectionUrl_snd (auth : Option AuthConfig) (name : String)
    (provider cache : List Server) :
    (getConnectionUrl auth name provider cache).2 =
      (if provider = [] then cache else provider) := by
  cases provider <;> cases auth <;> simp [getConnectionUrl]

lemma joinComma_count_comma (l : List String)
    (h : ∀ t ∈ l, ¬ ',' ∈ t.data) :
    (joinComma l).data.count ',' = l.length - 1 := by
  induction l with
  | nil => rfl
  | cons x xs ih =>
    cases xs with
    | nil =>
      have hx := h x (by simp)
      simp [joinComma, List.count_eq_zero_of_not_mem hx]
    | cons y ys =>
      have hx := h x (by simp)
      have ihy := ih (fun t ht => h t (by simp [ht]))
      simp only [joinComma, String.data_append, List.count_append] at *
      rw [List.count_eq_zero_of_not_mem hx, ihy]
      simp [List.length_cons]
      omega

lemma joinComma_not_mem (c : Char) (hc : c ≠ ',') (l : List String)
    (h : ∀ t ∈ l, ¬ c ∈ t.data) :
    ¬ c ∈ (joinComma l).data := by
  induction l with
  | nil => simp [joinComma, String.data]
  | cons x xs ih =>
    cases xs with
    | nil => exact h x (by simp)
    | cons y ys =>
      have hx := h x (by simp)
      have ihy := ih (fun t ht => h t (by simp [ht]))
      simp only [joinComma, String.data_append, List.mem_append]
      rintro (⟨h1 | h2⟩ | h3)
      · exact hx h1
      · revert h2; simp; exact hc
      · exact ihy h3

lemma hexUpper_ne_at (n : Nat) (h : n < 16) : hexUpper n ≠ '@' := by
  interval_cases n <;> decide

lemma byteToPercent_at_free (b : Nat) : ¬ '@' ∈ (byteToPercent b).data := by
  intro hmem
  have hmem' : '@' ∈ ['%', hexUpper (b / 16 % 16), hexUpper (b % 16)] := hmem
  simp only [List.mem_cons, List.not_mem_nil, or_false] at hmem'
  rcases hmem' with h | h | h
  · exact absurd h (by decide)
  · exact absurd h.symm (hexUpper_ne_at _ (Nat.mod_lt _ (by norm_num)))
  · exact absurd h.symm (hexUpper_ne_at _ (Nat.mod_lt _ (by norm_num)))

lemma joinAll_mem {c : Char} {l : List String} (h : c ∈ (joinAll l).data) :
    ∃ t ∈ l, c ∈ t.data := by
  induction l with
  | nil => exact absurd h (by simp [joinAll])
  | cons x xs ih =>
    simp only [joinAll, String.data_append, List.mem_append] at h
    rcases h with h | h
    · exact ⟨x, by simp, h⟩
    · obtain ⟨t, ht, hc⟩ := ih h
      exact ⟨t, by simp [ht], hc⟩

lemma formEncodeChar_at_free (c : Char) : ¬ '@' ∈ (formEncodeChar c).data := by
  by_cases hsp : c = ' '
  · simp [formEncodeChar, hsp]
  · by_cases hsafe : isFormSafe c
    · simp only [formEncodeChar, if_neg hsp, if_pos hsafe]
      intro hmem
      have : '@' = c := by simpa [String.singleton] using hmem
      subst this
      exact absurd hsafe (by decide)
    · simp only [formEncodeChar, if_neg hsp, if_neg hsafe]
      intro hmem
      obtain ⟨t, ht, hc⟩ := joinAll_mem hmem
      obtain ⟨b, _, rfl⟩ := List.mem_map.mp ht
      exact byteToPercent_at_free b hc

lemma formEncode_at_free (s : String) : ¬ '@' ∈ (formEncode s).data := by
  intro hmem
  obtain ⟨t, ht, hc⟩ := joinAll_mem hmem
  obtain ⟨ch, _, rfl⟩ := List.mem_map.mp ht
  exact formEncodeChar_at_free ch hc

lemma querySeg_at_free (name : String) : ¬ '@' ∈ (querySeg name).data := by
  by_cases h : name == ""
  · simp [querySeg, h]
  · simp only [querySeg, if_neg h, String.data_append]
    intro hmem
    rcases List.mem_append.mp hmem with hm | hm
    · rcases List.mem_append.mp hm with hm' | hm'
      · revert hm'; decide
      · revert hm'; decide
    · exact formEncode_at_free name hm

/-- Claim C5: empty provider results substitute the healthy-host cache;
with both empty the host segment is empty; the cache follows the
post-substitution list, is overwritten by every non-empty provider
result, and once non-empty is never cleared. -/
theorem getConnectionUrl_cache_behavior (auth : Option AuthConfig) (name : String)
    (provider cache : List Server) :
    (provider = [] →
      (getConnectionUrl auth name provider cache).2 = cache ∧
      (getConnectionUrl auth name provider cache).1 =
        "mongodb://" ++ credSeg auth ++ joinComma (cache.map serverToken) ++
          querySeg name) ∧
    (provider = [] → cache = [] →
      (getConnectionUrl auth name provider cache).1 =
        "mongodb://" ++ credSeg auth ++ querySeg name) ∧
    (provider ≠ [] → (getConnectionUrl auth name provider cache).2 = provider) ∧
    ((getConnectionUrl auth name provider cache).2 = [] →
      provider = [] ∧ cache = []) ∧
    (cache ≠ [] → (getConnectionUrl auth name provider cache).2 ≠ []) := by
  refine ⟨?_, ?_, ?_, ?_, ?_⟩
  · rintro rfl
    refine ⟨by simp [getConnectionUrl_snd], ?_⟩
    rw [getConnectionUrl_fst]
    simp
  · rintro rfl rfl
    rw [getConnectionUrl_fst]
    simp [joinComma]
  · intro h
    simp [getConnectionUrl_snd, h]
  · intro h
    rw [getConnectionUrl_snd] at h
    by_cases hp : provider = []
    · subst hp; simp_all
    · simp [hp] at h
  · intro hc h
    rw [getConnectionUrl_snd] at h
    by_cases hp : provider = []
    · subst hp; simp_all
    · simp [hp] at h

/-- Witness for C5 at concrete inputs. -/
theorem getConnectionUrl_cache_behavior_witness :
    (getConnectionUrl none "app" [] [⟨"b", 27017⟩]).2 = [⟨"b", 27017⟩] :=
  ((getConnectionUrl_cache_behavior none "app" [] [⟨"b", 27017⟩]).1 rfl).1

/-- Claim C6: URL format — scheme, optional single credential segment
directly after the scheme, comma-joined host tokens in provider order,
optional `?appName=` suffix; token and at-sign counts. -/
theorem getConnectionUrl_format (auth : Option AuthConfig) (name : String)
    (hs cache : List Server) (hne : hs ≠ [])
    (hcomma : ∀ s ∈ hs, ¬ ',' ∈ (serverToken s).data)
    (hat : ∀ s ∈ hs, ¬ '@' ∈ (serverToken s).data) :
    (getConnectionUrl auth name hs cache).1 =
      "mongodb://" ++ credSeg auth ++ joinComma (hs.map serverToken) ++
        querySeg name ∧
    (joinComma (hs.map serverToken)).data.count ',' = hs.length - 1 ∧
    (getConnectionUrl none name hs cache).1.data.count '@' = 0 ∧
    (∀ u p, ¬ '@' ∈ u.data → ¬ '@' ∈ p.data →
      (getConnectionUrl (some ⟨u, p⟩) name hs cache).1.data.count '@' = 1) := by
  have hcomma' : ∀ t ∈ hs.map serverToken, ¬ ',' ∈ t.data := by
    intro t ht
    obtain ⟨s, hsm, rfl⟩ := List.mem_map.mp ht
    exact hcomma s hsm
  have hat' : ∀ t ∈ hs.map serverToken, ¬ '@' ∈ t.data := by
    intro t ht
    obtain ⟨s, hsm, rfl⟩ := List.mem_map.mp ht
    exact hat s hsm
  have hhost : ¬ '@' ∈ (joinComma (hs.map serverToken)).data :=
    joinComma_not_mem '@' (by decide) _ hat'
  have hcomma'' : ∀ t ∈ hs.map serverToken, t.data.count ',' = 0 := by
    intro t ht
    exact List.count_eq_zero_of_not_mem (hcomma' t ht)
  refine ⟨?_, ?_, ?_, ?_⟩
  · rw [getConnectionUrl_fst]
    simp [hne]
  · rw [joinComma_count_comma _ hcomma']
    simp
  · rw [getConnectionUrl_fst, if_neg hne]
    simp only [String.data_append, List.count_append, credSeg]
    rw [List.count_eq_zero_of_not_mem hhost,
        List.count_eq_zero_of_not_mem (querySeg_at_free name)]
    decide
  · intro u p hu hp
    rw [getConnectionUrl_fst, if_neg hne]
    simp only [String.data_append, List.count_append, credSeg]
    rw [List.count_eq_zero_of_not_mem hhost,
        List.count_eq_zero_of_not_mem (querySeg_at_free name),
        List.count_eq_zero_of_not_mem hu,
        List.count_eq_zero_of_not_mem hp]
    decide

/-- Witness for C6 at concrete inputs. -/
theorem getConnectionUrl_format_witness :
    (getConnectionUrl (some ⟨"u", "p"⟩) "svc"
        [⟨"h1", 27017⟩, ⟨"h2", 27018⟩] []).1 =
      "mongodb://" ++ credSeg (some ⟨"u", "p"⟩) ++
        joinComma ([Server.mk "h1" 27017, Server.mk "h2" 27018].map serverToken) ++
        querySeg "svc" :=
  (getConnectionUrl_format (some ⟨"u", "p"⟩) "svc"
    [⟨"h1", 27017⟩, ⟨"h2", 27018⟩] [] (by decide) (by decide) (by decide)).1

lemma connectLoop_succ (auth : Option AuthConfig) (name : String) (env : Nat → AttemptEnv)
    (fuel attempt : Nat) (s : MState) (h : attempt ≤ 10) :
    connectLoop auth name env (fuel + 1) attempt s =
      match (env attempt).conn with
      | .ok c =>
        ⟨{ afterUrl auth name env attempt s with mongoClient := some c }, [], .connected, 1⟩
      | .errRetryable e =>
        let rest := connectLoop auth name env fuel (attempt + 1) (afterUrl auth name env attempt s)
        ⟨rest.state, .errorEmitted e :: .sleep (2 * attempt) :: rest.trace,
          rest.exit, rest.attemptsMade + 1⟩
      | .errFatal e =>
        ⟨afterUrl auth name env attempt s, [], .fatal e, 1⟩ := by
  simp only [connectLoop, afterUrl, if_pos h]

lemma connectLoop_guard_false (auth : Option AuthConfig) (name : String)
    (env : Nat → AttemptEnv) (fuel attempt : Nat) (s : MState) (h : ¬ attempt ≤ 10) :
    connectLoop auth name env (fuel + 1) attempt s = ⟨s, [], .exhausted, 0⟩ := by
  simp only [connectLoop, if_neg h]

lemma sleepsOf_nil : sleepsOf [] = [] := rfl

lemma sleepsOf_cons_error (e : Nat) (tr : List Ev) :
    sleepsOf (.errorEmitted e :: tr) = sleepsOf tr := rfl

lemma sleepsOf_cons_sleep (n : Nat) (tr : List Ev) :
    sleepsOf (.sleep n :: tr) = n :: sleepsOf tr := rfl

lemma sleepsOf_append (a b : List Ev) :
    sleepsOf (a ++ b) = sleepsOf a ++ sleepsOf b :=
  List.filterMap_append a b _

lemma connectLoop_succ_ok (auth : Option AuthConfig) (name : String)
    (env : Nat → AttemptEnv) (fuel attempt : Nat) (s : MState) (c : Nat)
    (h : attempt ≤ 10) (hc : (env attempt).conn = .ok c) :
    connectLoop auth name env (fuel + 1) attempt s =
      ⟨{ afterUrl auth name env attempt s with mongoClient := some c },
        [], .connected, 1⟩ := by
  rw [connectLoop_succ auth name env fuel attempt s h, hc]

lemma connectLoop_succ_retry (auth : Option AuthConfig) (name : String)
    (env : Nat → AttemptEnv) (fuel attempt : Nat) (s : MState) (e : Nat)
    (h : attempt ≤ 10) (hc : (env attempt).conn = .errRetryable e) :
    connectLoop auth name env (fuel + 1) attempt s =
      ⟨(connectLoop auth name env fuel (attempt + 1) (afterUrl auth name env attempt s)).state,
        .errorEmitted e :: .sleep (2 * attempt) ::
          (connectLoop auth name env fuel (attempt + 1) (afterUrl auth name env attempt s)).trace,
        (connectLoop auth name env fuel (attempt + 1) (afterUrl auth name env attempt s)).exit,
        (connectLoop auth name env fuel (attempt + 1) (afterUrl auth name env attempt s)).attemptsMade + 1⟩ := by
  rw [connectLoop_succ auth name env fuel attempt s h, hc]

lemma connectLoop_succ_fatal (auth : Option AuthConfig) (name : String)
    (env : Nat → AttemptEnv) (fuel attempt : Nat) (s : MState) (e : Nat)
    (h : attempt ≤ 10) (hc : (env attempt).conn = .errFatal e) :
    connectLoop auth name env (fuel + 1) attempt s =
      ⟨afterUrl auth name env attempt s, [], .fatal e, 1⟩ := by
  rw [connectLoop_succ auth name env fuel attempt s h, hc]

lemma afterUrl_mongoClient (auth : Option AuthConfig) (name : String)
    (env : Nat → AttemptEnv) (attempt : Nat) (s : MState) :
    (afterUrl auth name env attempt s).mongoClient = s.mongoClient := rfl

lemma afterUrl_client (auth : Option AuthConfig) (name : String)
    (env : Nat → AttemptEnv) (attempt : Nat) (s : MState) :
    (afterUrl auth name env attempt s).client = s.client := rfl

lemma connectLoop_client (auth : Option AuthConfig) (name : String)
    (env : Nat → AttemptEnv) :
    ∀ fuel attempt s, (connectLoop auth name env fuel attempt s).state.client = s.client := by
  intro fuel
  induction fuel with
  | zero => intro attempt s; rfl
  | succ n ih =>
    intro attempt s
    by_cases h : attempt ≤ 10
    · cases hc : (env attempt).conn with
      | ok c => rw [connectLoop_succ_ok auth name env n attempt s c h hc]; rfl
      | errRetryable e =>
        rw [connectLoop_succ_retry auth name env n attempt s e h hc]
        exact (ih _ _).trans (afterUrl_client _ _ _ _ _)
      | errFatal e => rw [connectLoop_succ_fatal auth name env n attempt s e h hc]; rfl
    · rw [connectLoop_guard_false auth name env n attempt s h]

lemma connectLoop_mongoClient (auth : Option AuthConfig) (name : String)
    (env : Nat → AttemptEnv) :
    ∀ fuel attempt s, (connectLoop auth name env fuel attempt s).exit ≠ .connected →
      (connectLoop auth name env fuel attempt s).state.mongoClient = s.mongoClient := by
  intro fuel
  induction fuel with
  | zero => intro attempt s _; rfl
  | succ n ih =>
    intro attempt s hne
    by_cases h : attempt ≤ 10
    · cases hc : (env attempt).conn with
      | ok c =>
        rw [connectLoop_succ_ok auth name env n attempt s c h hc] at hne
        exact absurd rfl hne
      | errRetryable e =>
        rw [connectLoop_succ_retry auth name env n attempt s e h hc] at hne ⊢
        exact (ih _ _ hne).trans (afterUrl_mongoClient _ _ _ _ _)
      | errFatal e =>
        rw [connectLoop_succ_fatal auth name env n attempt s e h hc]
        rfl
    · rw [connectLoop_guard_false auth name env n attempt s h]

lemma connectLoop_connected_some (auth : Option AuthConfig) (name : String)
    (env : Nat → AttemptEnv) :
    ∀ fuel attempt s, (connectLoop auth name env fuel attempt s).exit = .connected →
      ∃ c, (connectLoop auth name env fuel attempt s).state.mongoClient = some c := by
  intro fuel
  induction fuel with
  | zero => intro attempt s hx; cases hx
  | succ n ih =>
    intro attempt s hx
    by_cases h : attempt ≤ 10
    · cases hc : (env attempt).conn with
      | ok c => rw [connectLoop_succ_ok auth name env n attempt s c h hc]; exact ⟨c, rfl⟩
      | errRetryable e =>
        rw [connectLoop_succ_retry auth name env n attempt s e h hc] at hx ⊢
        exact ih _ _ hx
      | errFatal e =>
        rw [connectLoop_succ_fatal auth name env n attempt s e h hc] at hx
        cases hx
    · rw [connectLoop_guard_false auth name env n attempt s h] at hx
      cases hx

lemma connectLoop_attempts (auth : Option AuthConfig) (name : String)
    (env : Nat → AttemptEnv) :
    ∀ fuel attempt s, (connectLoop auth name env fuel attempt s).attemptsMade ≤ 11 - attempt := by
  intro fuel
  induction fuel with
  | zero => intro attempt s; exact Nat.zero_le _
  | succ n ih =>
    intro attempt s
    by_cases h : attempt ≤ 10
    · cases hc : (env attempt).conn with
      | ok c =>
        rw [connectLoop_succ_ok auth name env n attempt s c h hc]
        show 1 ≤ 11 - attempt
        omega
      | errRetryable e =>
        rw [connectLoop_succ_retry auth name env n attempt s e h hc]
        have := ih (attempt + 1) (afterUrl auth name env attempt s)
        show (connectLoop auth name env n (attempt + 1) (afterUrl auth name env attempt s)).attemptsMade + 1 ≤ 11 - attempt
        omega
      | errFatal e =>
        rw [connectLoop_succ_fatal auth name env n attempt s e h hc]
        show 1 ≤ 11 - attempt
        omega
    · rw [connectLoop_guard_false auth name env n attempt s h]
      exact Nat.zero_le _

lemma range_map_succ {α : Type} (f : Nat → α) (m : Nat) :
    (List.range (m + 1)).map f = f 0 :: (List.range m).map (fun i => f (i + 1)) := by
  rw [List.range_succ_eq_map, List.map_cons, List.map_map]
  rfl

lemma connectLoop_sleeps (auth : Option AuthConfig) (name : String)
    (env : Nat → AttemptEnv) :
    ∀ fuel attempt s, attempt ≤ 11 → fuel + attempt = 12 →
      ∃ m, attempt + m ≤ 11 ∧
        sleepsOf (connectLoop auth name env fuel attempt s).trace =
          (List.range m).map (fun i => 2 * (attempt + i)) ∧
        ((connectLoop auth name env fuel attempt s).exit = .exhausted →
          attempt + m = 11) := by
  intro fuel
  induction fuel with
  | zero => intro attempt s h11 hfa; omega
  | succ n ih =>
    intro attempt s h11 hfa
    by_cases h : attempt ≤ 10
    · cases hc : (env attempt).conn with
      | ok c =>
        rw [connectLoop_succ_ok auth name env n attempt s c h hc]
        exact ⟨0, by omega, rfl, fun hx => by cases hx⟩
      | errRetryable e =>
        obtain ⟨m, hm11, hsl, hex⟩ :=
          ih (attempt + 1) (afterUrl auth name env attempt s) (by omega) (by omega)
        rw [connectLoop_succ_retry auth name env n attempt s e h hc]
        refine ⟨m + 1, by omega, ?_, ?_⟩
        · rw [sleepsOf_cons_error, sleepsOf_cons_sleep, hsl, range_map_succ]
          congr 1
          refine List.map_congr_left ?_
          intro i _
          omega
        · intro hx
          have := hex hx
          omega
      | errFatal e =>
        rw [connectLoop_succ_fatal auth name env n attempt s e h hc]
        exact ⟨0, by omega, rfl, fun hx => by cases hx⟩
    · rw [connectLoop_guard_false auth name env n attempt s h]
      exact ⟨0, by omega, rfl, fun _ => by omega⟩

lemma connectLoop_allRetry (auth : Option AuthConfig) (name : String)
    (env : Nat → AttemptEnv) :
    ∀ fuel attempt s, attempt ≤ 11 → fuel + attempt = 12 →
      (∀ j, attempt ≤ j → j ≤ 10 → ∃ e, (env j).conn = .errRetryable e) →
      (connectLoop auth name env fuel attempt s).exit = .exhausted := by
  intro fuel
  induction fuel with
  | zero => intro attempt s h11 hfa _; omega
  | succ n ih =>
    intro attempt s h11 hfa hall
    by_cases h : attempt ≤ 10
    · obtain ⟨e, hc⟩ := hall attempt le_rfl h
      rw [connectLoop_succ_retry auth name env n attempt s e h hc]
      exact ih (attempt + 1) (afterUrl auth name env attempt s) (by omega) (by omega)
        (fun j hj1 hj2 => hall j (by omega) hj2)
    · rw [connectLoop_guard_false auth name env n attempt s h]

lemma connectLoop_fatal_char (auth : Option AuthConfig) (name : String)
    (env : Nat → AttemptEnv) (k e : Nat) (hk : k ≤ 10)
    (hfat : (env k).conn = .errFatal e) :
    ∀ fuel attempt s, fuel + attempt = 12 → attempt ≤ k →
      (∀ j, attempt ≤ j → j < k → ∃ e', (env j).conn = .errRetryable e') →
      (connectLoop auth name env fuel attempt s).exit = .fatal e ∧
      (connectLoop auth name env fuel attempt s).attemptsMade = k - attempt + 1 ∧
      sleepsOf (connectLoop auth name env fuel attempt s).trace =
        (List.range (k - attempt)).map (fun i => 2 * (attempt + i)) := by
  intro fuel
  induction fuel with
  | zero => intro attempt s hfa hak _; omega
  | succ n ih =>
    intro attempt s hfa hak hpre
    have h : attempt ≤ 10 := le_trans hak hk
    rcases Nat.eq_or_lt_of_le hak with heq | hlt
    · subst heq
      rw [connectLoop_succ_fatal auth name env n attempt s e h hfat]
      refine ⟨rfl, by simp, ?_⟩
      simp [sleepsOf_nil]
    · obtain ⟨e', hc⟩ := hpre attempt le_rfl hlt
      rw [connectLoop_succ_retry auth name env n attempt s e' h hc]
      obtain ⟨hex, hat, hsl⟩ := ih (attempt + 1) (afterUrl auth name env attempt s)
        (by omega) (by omega) (fun j hj1 hj2 => hpre j (by omega) hj2)
      refine ⟨hex, by simp only; omega, ?_⟩
      rw [sleepsOf_cons_error, sleepsOf_cons_sleep, hsl,
          show k - attempt = (k - (attempt + 1)) + 1 by omega,
          range_map_succ]
      congr 1
      refine List.map_congr_left ?_
      intro i _
      omega

lemma connectLoop_success_char (auth : Option AuthConfig) (name : String)
    (env : Nat → AttemptEnv) (k c : Nat) (hk : k ≤ 10)
    (hok : (env k).conn = .ok c) :
    ∀ fuel attempt s, fuel + attempt = 12 → attempt ≤ k →
      (∀ j, attempt ≤ j → j < k → ∃ e', (env j).conn = .errRetryable e') →
      (connectLoop auth name env fuel attempt s).exit = .connected ∧
      (connectLoop auth name env fuel attempt s).state.mongoClient = some c ∧
      (connectLoop auth name env fuel attempt s).attemptsMade = k - attempt + 1 ∧
      sleepsOf (connectLoop auth name env fuel attempt s).trace =
        (List.range (k - attempt)).map (fun i => 2 * (attempt + i)) := by
  intro fuel
  induction fuel with
  | zero => intro attempt s hfa hak _; omega
  | succ n ih =>
    intro attempt s hfa hak hpre
    have h : attempt ≤ 10 := le_trans hak hk
    rcases Nat.eq_or_lt_of_le hak with heq | hlt
    · subst heq
      rw [connectLoop_succ_ok auth name env n attempt s c h hok]
      refine ⟨rfl, rfl, by simp, ?_⟩
      simp [sleepsOf_nil]
    · obtain ⟨e', hc⟩ := hpre attempt le_rfl hlt
      rw [connectLoop_succ_retry auth name env n attempt s e' h hc]
      obtain ⟨hex, hmc, hat, hsl⟩ := ih (attempt + 1) (afterUrl auth name env attempt s)
        (by omega) (by omega) (fun j hj1 hj2 => hpre j (by omega) hj2)
      refine ⟨hex, hmc, by simp only; omega, ?_⟩
      rw [sleepsOf_cons_error, sleepsOf_cons_sleep, hsl,
          show k - attempt = (k - (attempt + 1)) + 1 by omega,
          range_map_succ]
      congr 1
      refine List.map_congr_left ?_
      intro i _
      omega

lemma connectLoop_no_closeAwaited (auth : Option AuthConfig) (name : String)
    (env : Nat → AttemptEnv) :
    ∀ fuel attempt s x, Ev.closeAwaited x ∉ (connectLoop auth name env fuel attempt s).trace := by
  intro fuel
  induction fuel with
  | zero => intro attempt s x hmem; cases hmem
  | succ n ih =>
    intro attempt s x
    by_cases h : attempt ≤ 10
    · cases hc : (env attempt).conn with
      | ok c =>
        rw [connectLoop_succ_ok auth name env n attempt s c h hc]
        intro hmem; cases hmem
      | errRetryable e =>
        rw [connectLoop_succ_retry auth name env n attempt s e h hc]
        intro hmem
        simp only [List.mem_cons] at hmem
        rcases hmem with h | h | hmem
        · cases h
        · cases h
        · exact ih (attempt + 1) (afterUrl auth name env attempt s) x hmem
      | errFatal e =>
        rw [connectLoop_succ_fatal auth name env n attempt s e h hc]
        intro hmem; cases hmem
    · rw [connectLoop_guard_false auth name env n attempt s h]
      intro hmem; cases hmem

lemma connect_eq_fatal (auth : Option AuthConfig) (name dbName : String)
    (env : Nat → AttemptEnv) (s : MState) (e : Nat)
    (hx : (connectLoop auth name env 11 1 s).exit = .fatal e) :
    connect auth name dbName env s =
      ((connectLoop auth name env 11 1 s).state,
       (connectLoop auth name env 11 1 s).trace, .threw (.wrapped e)) := by
  simp only [connect]
  rw [hx]

lemma connect_eq_exhausted_none (auth : Option AuthConfig) (name dbName : String)
    (env : Nat → AttemptEnv) (s : MState)
    (hx : (connectLoop auth name env 11 1 s).exit = .exhausted)
    (hmc : (connectLoop auth name env 11 1 s).state.mongoClient = none) :
    connect auth name dbName env s =
      ((connectLoop auth name env 11 1 s).state,
       (connectLoop auth name env 11 1 s).trace, .threw .typeFault) := by
  simp only [connect]
  rw [hx, hmc]

lemma connect_eq_connected_some (auth : Option AuthConfig) (name dbName : String)
    (env : Nat → AttemptEnv) (s : MState) (c : Nat)
    (hx : (connectLoop auth name env 11 1 s).exit = .connected)
    (hmc : (connectLoop auth name env 11 1 s).state.mongoClient = some c) :
    connect auth name dbName env s =
      ({ (connectLoop auth name env 11 1 s).state with client := some (c, dbName) },
       (connectLoop auth name env 11 1 s).trace ++ [Ev.successEmitted] ++
         (match s.mongoClient with
          | some oldC => [Ev.closeInitiated oldC]
          | none => []),
       .resolvedSelf) := by
  simp only [connect]
  rw [hx, hmc]

lemma connect_eq_exhausted_some (auth : Option AuthConfig) (name dbName : String)
    (env : Nat → AttemptEnv) (s : MState) (c : Nat)
    (hx : (connectLoop auth name env 11 1 s).exit = .exhausted)
    (hmc : (connectLoop auth name env 11 1 s).state.mongoClient = some c) :
    connect auth name dbName env s =
      ({ (connectLoop auth name env 11 1 s).state with client := some (c, dbName) },
       (connectLoop auth name env 11 1 s).trace ++ [Ev.successEmitted] ++
         (match s.mongoClient with
          | some oldC => [Ev.closeInitiated oldC]
          | none => []),
       .resolvedSelf) := by
  simp only [connect]
  rw [hx, hmc]

lemma sleepsOf_closeEvs (o : Option Nat) :
    sleepsOf (match o with
      | some oldC => [Ev.closeInitiated oldC]
      | none => []) = [] := by
  cases o <;> rfl

lemma connect_sleeps (auth : Option AuthConfig) (name dbName : String)
    (env : Nat → AttemptEnv) (s : MState) :
    sleepsOf (connect auth name dbName env s).2.1 =
      sleepsOf (connectLoop auth name env 11 1 s).trace := by
  cases hx : (connectLoop auth name env 11 1 s).exit with
  | connected =>
    obtain ⟨c, hmc⟩ := connectLoop_connected_some auth name env 11 1 s hx
    rw [connect_eq_connected_some auth name dbName env s c hx hmc]
    show sleepsOf (_ ++ _ ++ _) = _
    rw [sleepsOf_append, sleepsOf_append, sleepsOf_closeEvs]
    simp [sleepsOf]
  | exhausted =>
    cases hmc : (connectLoop auth name env 11 1 s).state.mongoClient with
    | none => rw [connect_eq_exhausted_none auth name dbName env s hx hmc]
    | some c =>
      rw [connect_eq_exhausted_some auth name dbName env s c hx hmc]
      show sleepsOf (_ ++ _ ++ _) = _
      rw [sleepsOf_append, sleepsOf_append, sleepsOf_closeEvs]
      simp [sleepsOf]
  | fatal e => rw [connect_eq_fatal auth name dbName env s e hx]

/-- Claim C1 (amended): `connect()` performs at most 10 connection
attempts and no sleep before the first attempt; after the k-th failed
retryable attempt it sleeps exactly `2*k` time units for k = 1..10 —
including after the 10th failed attempt, just before the loop exits — so
full exhaustion of the attempt budget sleeps `2+4+...+20 = 110` time
units in total, not 90. -/
theorem connect_retry_backoff (auth : Option AuthConfig) (name dbName : String)
    (env : Nat → AttemptEnv) (s : MState) :
    (connectLoop auth name env 11 1 s).attemptsMade ≤ 10 ∧
    (∃ m, m ≤ 10 ∧
      sleepsOf (connect auth name dbName env s).2.1 =
        (List.range m).map (fun i => 2 * (1 + i))) ∧
    ((connectLoop auth name env 11 1 s).exit = .exhausted →
      sleepsOf (connect auth name dbName env s).2.1 =
        (List.range 10).map (fun i => 2 * (1 + i)) ∧
      (sleepsOf (connect auth name dbName env s).2.1).sum = 110) := by
  obtain ⟨m, hm11, hsl, hex⟩ := connectLoop_sleeps auth name env 11 1 s (by omega) rfl
  refine ⟨?_, ⟨m, by omega, ?_⟩, ?_⟩
  · have := connectLoop_attempts auth name env 11 1 s
    omega
  · rw [connect_sleeps, hsl]
  · intro hx
    have hm10 : m = 10 := by have := hex hx; omega
    subst hm10
    rw [connect_sleeps, hsl]
    exact ⟨rfl, by decide⟩

/-- Witness for C1 at a concrete all-retryable environment. -/
theorem connect_retry_backoff_witness :
    sleepsOf (connect none "app" "db" allRetryableEnv ⟨none, none, []⟩).2.1 =
      (List.range 10).map (fun i => 2 * (1 + i)) :=
  ((connect_retry_backoff none "app" "db" allRetryableEnv ⟨none, none, []⟩).2.2
    (by decide)).1

/-- Counterexample to C1 as stated: with every attempt failing retryably,
the trace contains a sleep of `2*10 = 20` (a sleep after the 10th failed
attempt, not only after the 1st..9th), and the total sleep time is 110,
not the claimed sum of `2*k` for k = 1..9 (which is 90). -/
theorem connect_retry_backoff_cex :
    Ev.sleep 20 ∈ (connect none "app" "db" allRetryableEnv ⟨none, none, []⟩).2.1 ∧
    (sleepsOf (connect none "app" "db" allRetryableEnv ⟨none, none, []⟩).2.1).sum = 110 ∧
    ((List.range 9).map (fun k => 2 * (k + 1))).sum = 90 ∧
    (sleepsOf (connect none "app" "db" allRetryableEnv ⟨none, none, []⟩).2.1).sum ≠
      ((List.range 9).map (fun k => 2 * (k + 1))).sum := by
  decide

/-- Claim C4: a non-retryable failure on attempt k aborts the loop at
once — the error propagates wrapped, exactly k attempts were made, and
only the k-1 backoff sleeps of the preceding retryable failures occur. -/
theorem connect_nonretryable_aborts (auth : Option AuthConfig) (name dbName : String)
    (env : Nat → AttemptEnv) (s : MState) (k e : Nat)
    (hk1 : 1 ≤ k) (hk10 : k ≤ 10)
    (hpre : ∀ j, 1 ≤ j → j < k → ∃ e', (env j).conn = .errRetryable e')
    (hfat : (env k).conn = .errFatal e) :
    (connect auth name dbName env s).2.2 = .threw (.wrapped e) ∧
    (connectLoop auth name env 11 1 s).attemptsMade = k ∧
    sleepsOf (connect auth name dbName env s).2.1 =
      (List.range (k - 1)).map (fun i => 2 * (1 + i)) := by
  obtain ⟨hex, hat, hsl⟩ :=
    connectLoop_fatal_char auth name env k e hk10 hfat 11 1 s rfl hk1 hpre
  refine ⟨?_, ?_, ?_⟩
  · rw [connect_eq_fatal auth name dbName env s e hex]
  · rw [hat]; omega
  · rw [connect_sleeps, hsl]

/-- Witness for C4: retryable failures on attempts 1/2, non-retryable on
attempt 3. -/
theorem connect_nonretryable_aborts_witness :
    (connect none "app" "db" fatalAfterRetriesEnv ⟨none, none, []⟩).2.2 =
      .threw (.wrapped 5) :=
  (connect_nonretryable_aborts none "app" "db" fatalAfterRetriesEnv ⟨none, none, []⟩ 3 5
    (by decide) (by decide)
    (fun j hj1 hj2 => ⟨j, by unfold fatalAfterRetriesEnv; rw [if_pos (by omega : j ≤ 2)]⟩)
    (by decide)).1

/-- Claim C7: a successful `connect()` resolves with the manager itself,
derives the database handle from the newly established client (not a
prior one), installs the new client, initiates the old client close when
one existed, and never awaits any close. -/
theorem connect_success_swap (auth : Option AuthConfig) (name dbName : String)
    (env : Nat → AttemptEnv) (s : MState) (k c : Nat)
    (hk1 : 1 ≤ k) (hk10 : k ≤ 10)
    (hpre : ∀ j, 1 ≤ j → j < k → ∃ e', (env j).conn = .errRetryable e')
    (hok : (env k).conn = .ok c) :
    (connect auth name dbName env s).2.2 = .resolvedSelf ∧
    (connect auth name dbName env s).1.client = some (c, dbName) ∧
    (connect auth name dbName env s).1.mongoClient = some c ∧
    (∀ oldC, s.mongoClient = some oldC →
      Ev.closeInitiated oldC ∈ (connect auth name dbName env s).2.1) ∧
    (∀ x, Ev.closeAwaited x ∉ (connect auth name dbName env s).2.1) := by
  obtain ⟨hex, hmc, hat, hsl⟩ :=
    connectLoop_success_char auth name env k c hk10 hok 11 1 s rfl hk1 hpre
  rw [connect_eq_connected_some auth name dbName env s c hex hmc]
  refine ⟨rfl, rfl, hmc, ?_, ?_⟩
  · intro oldC hold
    rw [hold]
    simp
  · intro x hmem
    simp only [List.mem_append] at hmem
    rcases hmem with (hmem | hmem) | hmem
    · exact connectLoop_no_closeAwaited auth name env 11 1 s x hmem
    · simp at hmem
    · cases hs : s.mongoClient with
      | none => rw [hs] at hmem; cases hmem
      | some oldC =>
        rw [hs] at hmem
        simp at hmem

/-- Witness for C7: first attempt succeeds with client 42 while client 7
was installed. -/
theorem connect_success_swap_witness :
    (connect none "app" "db" successFirstEnv ⟨some 7, none, []⟩).1.client =
        some (42, "db") ∧
    Ev.closeInitiated 7 ∈ (connect none "app" "db" successFirstEnv ⟨some 7, none, []⟩).2.1 := by
  have h := connect_success_swap none "app" "db" successFirstEnv ⟨some 7, none, []⟩ 1 42
    (by decide) (by decide) (fun j hj1 hj2 => absurd hj1 (by omega)) (by decide)
  exact ⟨h.2.1, h.2.2.2.1 7 rfl⟩

/-- Claim C8: if all 10 attempts fail retryably on a manager with no
prior client handle, the loop installs no handle and the subsequent
database-handle derivation faults (`.db` of `undefined`). -/
theorem connect_exhaustion_fault (auth : Option AuthConfig) (name dbName : String)
    (env : Nat → AttemptEnv) (s : MState)
    (hall : ∀ k, 1 ≤ k → k ≤ 10 → ∃ e, (env k).conn = .errRetryable e)
    (hfresh : s.mongoClient = none) :
    (connect auth name dbName env s).2.2 = .threw .typeFault ∧
    (connect auth name dbName env s).1.mongoClient = none ∧
    (connect auth name dbName env s).1.client = s.client := by
  have hex := connectLoop_allRetry auth name env 11 1 s (by omega) rfl
    (fun j hj1 hj2 => hall j hj1 hj2)
  have hpres := connectLoop_mongoClient auth name env 11 1 s
    (by rw [hex]; simp)
  have hmc : (connectLoop auth name env 11 1 s).state.mongoClient = none :=
    hpres.trans hfresh
  rw [connect_eq_exhausted_none auth name dbName env s hex hmc]
  exact ⟨rfl, hmc, connectLoop_client auth name env 11 1 s⟩

/-- Witness for C8 at the all-retryable environment on a fresh manager. -/
theorem connect_exhaustion_fault_witness :
    (connect none "app" "db" allRetryableEnv ⟨none, none, []⟩).2.2 =
      .threw .typeFault :=
  (connect_exhaustion_fault none "app" "db" allRetryableEnv ⟨none, none, []⟩
    (fun _ _ _ => ⟨0, rfl⟩) rfl).1

/-- Claim C10: whenever `connect()` terminates by throwing, the
`mongoClient` and `client` fields are exactly as they were at entry. -/
theorem connect_throw_preserves (auth : Option AuthConfig) (name dbName : String)
    (env : Nat → AttemptEnv) (s : MState) (e : ConnErr)
    (hthrew : (connect auth name dbName env s).2.2 = .threw e) :
    (connect auth name dbName env s).1.mongoClient = s.mongoClient ∧
    (connect auth name dbName env s).1.client = s.client := by
  cases hx : (connectLoop auth name env 11 1 s).exit with
  | connected =>
    obtain ⟨c, hmc⟩ := connectLoop_connected_some auth name env 11 1 s hx
    rw [connect_eq_connected_some auth name dbName env s c hx hmc] at hthrew
    cases hthrew
  | exhausted =>
    cases hmc : (connectLoop auth name env 11 1 s).state.mongoClient with
    | none =>
      rw [connect_eq_exhausted_none auth name dbName env s hx hmc]
      have hpres := connectLoop_mongoClient auth name env 11 1 s (by rw [hx]; simp)
      exact ⟨hpres, connectLoop_client auth name env 11 1 s⟩
    | some c =>
      rw [connect_eq_exhausted_some auth name dbName env s c hx hmc] at hthrew
      cases hthrew
  | fatal e' =>
    rw [connect_eq_fatal auth name dbName env s e' hx]
    have hpres := connectLoop_mongoClient auth name env 11 1 s (by rw [hx]; simp)
    exact ⟨hpres, connectLoop_client auth name env 11 1 s⟩

/-- Witness for C10: a first-attempt non-retryable failure leaves the
previously installed handles in place. -/
theorem connect_throw_preserves_witness :
    (connect none "app" "db" fatalFirstEnv ⟨some 3, some (3, "db"), []⟩).1.mongoClient =
      some 3 :=
  (connect_throw_preserves none "app" "db" fatalFirstEnv ⟨some 3, some (3, "db"), []⟩
    (.wrapped 7) (by decide)).1

lemma handleMongoError_valid_null (err : MErr) (auth : Option AuthConfig)
    (name dbName : String) (env : Nat → AttemptEnv) (mst : MState)
    (hval : isValidError err = true) :
    handleMongoError err auth name dbName env mst .null =
      match (connect auth name dbName env mst).2.2 with
      | .resolvedSelf =>
        ((connect auth name dbName env mst).1, .null, .returned none, 1)
      | .threw e =>
        ((connect auth name dbName env mst).1, .promise (.error e), .threw e, 1) := by
  cases hconn : (connect auth name dbName env mst).2.2 with
  | resolvedSelf => simp [handleMongoError, hval, hconn]
  | threw e => simp [handleMongoError, hval, hconn]

/-- Claim C2 (amended): for a retryable error, a recovery only starts
from the exact `null` marker state: there `handleMongoError` invokes
`connect()` exactly once and awaits it — when that `connect()` resolves,
the marker is cleared and `null` is returned, but when it rejects, the
rejection propagates out of `handleMongoError` and the marker is left
holding the rejected operation (there is no `.catch` on the chain, so
`mongo.reconnecting = null` is never reached). On a fresh manager the
`reconnecting` field is still `undefined`, so although no recovery is in
flight, the strict `=== null` check fails and the call invokes
`connect()` zero times, sets the field to `null`, and returns `null`. A
non-retryable error is returned unchanged with no `connect()`
invocation. -/
theorem handleMongoError_behavior (err : MErr) (auth : Option AuthConfig)
    (name dbName : String) (env : Nat → AttemptEnv) (mst : MState) :
    (isValidError err = true →
      ((handleMongoError err auth name dbName env mst .null).2.2.2 = 1 ∧
       ((connect auth name dbName env mst).2.2 = .resolvedSelf →
         (handleMongoError err auth name dbName env mst .null).2.1 = .null ∧
         (handleMongoError err auth name dbName env mst .null).2.2.1 =
           .returned none) ∧
       (∀ e, (connect auth name dbName env mst).2.2 = .threw e →
         (handleMongoError err auth name dbName env mst .null).2.1 =
           .promise (.error e) ∧
         (handleMongoError err auth name dbName env mst .null).2.2.1 =
           .threw e)) ∧
      handleMongoError err auth name dbName env mst .undef =
        (mst, .null, .returned none, 0)) ∧
    (isValidError err = false →
      ∀ marker, handleMongoError err auth name dbName env mst marker =
        (mst, marker, .returned (some err), 0)) := by
  constructor
  · intro hval
    refine ⟨?_, ?_⟩
    · rw [handleMongoError_valid_null err auth name dbName env mst hval]
      refine ⟨?_, ?_, ?_⟩
      · cases hconn : (connect auth name dbName env mst).2.2 with
        | resolvedSelf => rfl
        | threw e => rfl
      · intro hconn
        rw [hconn]
        exact ⟨rfl, rfl⟩
      · intro e hconn
        rw [hconn]
        exact ⟨rfl, rfl⟩
    · simp [handleMongoError, hval]
  · intro hval marker
    simp [handleMongoError, hval]

/-- Witness for C2 (amended): a retryable error from the `null` marker
state with a first-attempt connect success returns null and clears the
marker. -/
theorem handleMongoError_behavior_witness :
    (handleMongoError (.serverSelection 1) none "app" "db" successFirstEnv
        ⟨none, none, []⟩ .null).2.2.1 = .returned none := by
  have h := (handleMongoError_behavior (.serverSelection 1) none "app" "db"
    successFirstEnv ⟨none, none, []⟩).1 rfl
  exact (h.1.2.1 (by decide)).2

/-- Counterexample to C2 as stated: (a) on a fresh manager no recovery is
in flight, yet because the never-initialized `reconnecting` field is
`undefined` rather than `null`, a retryable error invokes `connect()`
zero times — not exactly once — while still returning null; (b) from the
`null` state, a retryable error whose started `connect()` rejects (first
attempt fails non-retryably) does not clear the marker and does not
return null — `handleMongoError` rejects and `mongo.reconnecting` is left
holding the rejected operation. -/
theorem handleMongoError_cex :
    isValidError (.network 3) = true ∧
    (handleMongoError (.network 3) none "app" "db" successFirstEnv
      ⟨none, none, []⟩ .undef).2.2.2 = 0 ∧
    (handleMongoError (.network 3) none "app" "db" successFirstEnv
      ⟨none, none, []⟩ .undef).2.2.1 = .returned none ∧
    (handleMongoError (.network 3) none "app" "db" fatalFirstEnv
      ⟨none, none, []⟩ .null).2.2.2 = 1 ∧
    (handleMongoError (.network 3) none "app" "db" fatalFirstEnv
      ⟨none, none, []⟩ .null).2.1 ≠ .null ∧
    (handleMongoError (.network 3) none "app" "db" fatalFirstEnv
      ⟨none, none, []⟩ .null).2.2.1 ≠ .returned none := by
  decide

/-- Claim C3: while a recovery is in flight, any two overlapping
retryable `handleMongoError` calls take the reuse path in their (atomic)
synchronous entry segments: both await the very same outstanding recovery
identity, the shared state is untouched (in particular `connect()` is not
invoked again), and a new recovery is only ever started when none is in
flight — so at most one is in flight per manager at any time. -/
theorem stepEntry_dedup (e1 e2 : MErr) (g : CState) (r : Nat)
    (h1 : isValidError e1 = true) (h2 : isValidError e2 = true)
    (hin : g.reconnecting = some r) :
    stepEntry e1 g = (g, .awaiting r) ∧
    stepEntry e2 g = (g, .awaiting r) ∧
    (stepEntry e2 (stepEntry e1 g).1).1.connectCalls = g.connectCalls ∧
    (∀ e g', (stepEntry e g').1.connectCalls ≠ g'.connectCalls →
      g'.reconnecting = none) := by
  have hs : ∀ e, isValidError e = true → stepEntry e g = (g, .awaiting r) := by
    intro e he
    simp [stepEntry, he, hin]
  refine ⟨hs e1 h1, hs e2 h2, ?_, ?_⟩
  · rw [hs e1 h1, hs e2 h2]
  · intro e g' hne
    by_cases hv : isValidError e
    · cases hrec : g'.reconnecting with
      | none => rfl
      | some rid => exact absurd (by simp [stepEntry, hv, hrec]) hne
    · exact absurd (by simp [stepEntry, hv]) hne

/-- Witness for C3 at a concrete in-flight state. -/
theorem stepEntry_dedup_witness :
    stepEntry (.network 0) ⟨some 5, 1, 6⟩ = (⟨some 5, 1, 6⟩, .awaiting 5) :=
  (stepEntry_dedup (.network 0) (.networkTimeout 1) ⟨some 5, 1, 6⟩ 5 rfl rfl rfl).1

/-- Claim C9: the ID predicate returns true only when the string form
contains a 24-character lowercase-hex run and the driver validator also
accepts; the caster throws a `TypeError` embedding the offending value
exactly when the predicate is false, and otherwise returns the driver
constructor's result. -/
theorem isValidObjectId_cast_spec (native : String → Bool) (create : String → Nat)
    (value : String) :
    (isValidObjectId native value = true →
      hasHex24 value.data = true ∧ native value = true) ∧
    (isValidObjectId native value = false ↔
      castToObjectId native create value =
        .error ("Value passed is not valid objectId, is [ " ++ value ++ " ]")) ∧
    (isValidObjectId native value = true →
      castToObjectId native create value = .ok (create value)) := by
  refine ⟨?_, ⟨?_, ?_⟩, ?_⟩
  · intro h
    by_cases hh : hasHex24 value.data
    · exact ⟨hh, by simpa [isValidObjectId, hh] using h⟩
    · simp [isValidObjectId, hh] at h
  · intro h
    rw [castToObjectId, if_pos h]
  · intro h
    cases hb : isValidObjectId native value with
    | false => rfl
    | true =>
      rw [castToObjectId, if_neg (by simp [hb])] at h
      cases h
  · intro h
    rw [castToObjectId, if_neg (by simp [h])]

/-- Witness for C9: `castToObjectId("not-an-id")` throws with the value
embedded in the message. -/
theorem isValidObjectId_cast_spec_witness :
    castToObjectId (fun s => s.length == 24) (fun _ => 0) "not-an-id" =
      .error ("Value passed is not valid objectId, is [ " ++ "not-an-id" ++ " ]") :=
  ((isValidObjectId_cast_spec (fun s => s.length == 24) (fun _ => 0) "not-an-id").2.1).mp
    (by decide)

end MongoWrapper
